import Mathlib

set_option maxRecDepth 8000

/-!
Shallow embedding of the market-data DQ platform's rule engine and run
orchestrator (src/dq): calendars, source selection, the rule evaluators
(spike, missing dates, staleness, reconciliation, correlation break,
FX triangle) and the `run_dq` orchestrator.

Dates are modelled as rata-die day numbers (days since 0000-12-31 in the
proleptic Gregorian calendar, so day 1 is Monday 0001-01-01).  Numeric
values are modelled as rationals; a series is the list of its non-null
observations (pandas `dropna` is implicit in the representation).
-/

namespace MarketDQ

/-- One observation: (rata-die date, value). -/
abbrev Obs := Nat × ℚ

/-- A date-indexed series of numeric observations (pandas `pd.Series`
restricted to its non-null entries). -/
abbrev Series := List Obs

/-! ## Calendar service (src/dq/calendars.py) -/

/-- Gregorian leap year test. -/
def isLeapYear (y : Nat) : Bool :=
  (y % 4 == 0 && y % 100 != 0) || y % 400 == 0

/-- Cumulative day counts before each month in a non-leap year. -/
def cumDaysBeforeMonth (m : Nat) : Nat :=
  [0, 31, 59, 90, 120, 151, 181, 212, 243, 273, 304, 334].getD (m - 1) 0

/-- Days before month `m` of year `y`. -/
def daysBeforeMonth (y m : Nat) : Nat :=
  cumDaysBeforeMonth m + (if 3 ≤ m ∧ isLeapYear y then 1 else 0)

/-- Rata-die day number of the Gregorian date (y, m, d); day 1 is
0001-01-01, a Monday. -/
def rataDie (y m d : Nat) : Nat :=
  365 * (y - 1) + (y - 1) / 4 - (y - 1) / 100 + (y - 1) / 400 + daysBeforeMonth y m + d

/-- Day of week of a rata-die day: 1 = Monday, …, 6 = Saturday, 0 = Sunday. -/
def weekdayOf (rd : Nat) : Nat := rd % 7

/-- Monday-to-Friday test (pandas business day frequency). -/
def isWeekday (rd : Nat) : Bool := 1 ≤ rd % 7 && rd % 7 ≤ 5

/-- pandas `nearest_workday` observance: Saturday observed on Friday,
Sunday observed on Monday. -/
def nearestWorkday (rd : Nat) : Nat :=
  if rd % 7 == 6 then rd - 1 else if rd % 7 == 0 then rd + 1 else rd

/-- Western Easter Sunday (month, day) by the anonymous Gregorian
computus, as implemented by `dateutil.easter` which pandas' `Easter`
offset delegates to. -/
def easterMD (y : Nat) : Nat × Nat :=
  let a := y % 19
  let b := y / 100
  let c := y % 100
  let d := b / 4
  let e := b % 4
  let f := (b + 8) / 25
  let g := (b - f + 1) / 3
  let h := (19 * a + b + 15 - d - g) % 30
  let i := c / 4
  let k := c % 4
  let l := (32 + 2 * e + 2 * i - h - k) % 7
  let m := (a + 11 * h + 22 * l) / 451
  let month := (h + l + 114 - 7 * m) / 31
  let day := (h + l + 114 - 7 * m) % 31 + 1
  (month, day)

/-- Rata-die day of Easter Sunday of year `y`. -/
def easterRD (y : Nat) : Nat :=
  rataDie y (easterMD y).1 (easterMD y).2

/-- `n`-th (1-based) weekday `wd` (1 = Monday, …) of month `m` of year `y`,
as pandas expresses US Monday/Thursday holidays. -/
def nthWeekdayRD (y m wd n : Nat) : Nat :=
  let first := rataDie y m 1
  first + (wd + 7 - first % 7) % 7 + 7 * (n - 1)

/-- Last weekday `wd` of month `m` whose final day is `dLast`. -/
def lastWeekdayRD (y m dLast wd : Nat) : Nat :=
  let last := rataDie y m dLast
  last - (last % 7 + 7 - wd) % 7

/-- Observed holiday dates of `NYSEHolidayCalendar` generated for year `y`:
New Year, MLK, Presidents, Good Friday, Memorial, Juneteenth,
Independence, Labor, Thanksgiving, Christmas; fixed-date rules carry
`nearest_workday` observance. -/
def nyseHolidaysOfYear (y : Nat) : List Nat :=
  [nearestWorkday (rataDie y 1 1),
   nthWeekdayRD y 1 1 3,
   nthWeekdayRD y 2 1 3,
   easterRD y - 2,
   lastWeekdayRD y 5 31 1,
   nearestWorkday (rataDie y 6 19),
   nearestWorkday (rataDie y 7 4),
   nthWeekdayRD y 9 1 1,
   nthWeekdayRD y 11 4 4,
   nearestWorkday (rataDie y 12 25)]

/-- Observed holiday dates of `USTreasuryHolidayCalendar` for year `y`;
its rule list in the source is identical to the NYSE one. -/
def treasuryHolidaysOfYear (y : Nat) : List Nat :=
  [nearestWorkday (rataDie y 1 1),
   nthWeekdayRD y 1 1 3,
   nthWeekdayRD y 2 1 3,
   easterRD y - 2,
   lastWeekdayRD y 5 31 1,
   nearestWorkday (rataDie y 6 19),
   nearestWorkday (rataDie y 7 4),
   nthWeekdayRD y 9 1 1,
   nthWeekdayRD y 11 4 4,
   nearestWorkday (rataDie y 12 25)]

/-- Observed holiday dates of `TARGETLikeCalendar` for year `y`: New Year
(with `nearest_workday` observance in the source), Good Friday, Easter
Monday, Labour Day (fixed May 1), Christmas (fixed Dec 25), Boxing Day
(fixed Dec 26). -/
def targetLikeHolidaysOfYear (y : Nat) : List Nat :=
  [nearestWorkday (rataDie y 1 1),
   easterRD y - 2,
   easterRD y + 1,
   rataDie y 5 1,
   rataDie y 12 25,
   rataDie y 12 26]

/-- Year containing a rata-die day (inverse of `rataDie · 1 1`). -/
def yearOfRD (rd : Nat) : Nat :=
  let g := 400 * rd / 146097 + 1
  if rataDie (g + 1) 1 1 ≤ rd then g + 1
  else if rataDie g 1 1 ≤ rd then g
  else g - 1

/-- Holiday dates produced by a per-year rule table for the year span
pandas' `AbstractHolidayCalendar.holidays(start, end)` generates
(reference years from `start.year - 1` to `end.year + 1`). -/
def holidaysInRange (rules : Nat → List Nat) (startRD endRD : Nat) : List Nat :=
  let y1 := yearOfRD startRD - 1
  let y2 := yearOfRD endRD + 1
  ((List.range (y2 + 1 - y1)).map (fun k => y1 + k)).flatMap rules

/-- The dates of `pd.date_range(start, end, freq=CustomBusinessDay(holidays=hol))`:
Monday-to-Friday days in the closed range excluding listed holidays. -/
def busDayList (startRD endRD : Nat) (hol : List Nat) : List Nat :=
  ((List.range (endRD + 1 - startRD)).map (fun k => startRD + k)).filter
    (fun rd => isWeekday rd && !(hol.contains rd))

/-- `expected_dates(asset_class, start, end)` from src/dq/calendars.py,
returning the expected observation dates for the window. -/
def expected_dates (asset_class : String) (startRD endRD : Nat) : List Nat :=
  if asset_class = "equities" then
    busDayList startRD endRD (holidaysInRange nyseHolidaysOfYear startRD endRD)
  else if asset_class = "rates" then
    busDayList startRD endRD (holidaysInRange treasuryHolidaysOfYear startRD endRD)
  else if asset_class = "fx" then
    busDayList startRD endRD (holidaysInRange targetLikeHolidaysOfYear startRD endRD)
  else
    ((List.range (endRD + 1 - startRD)).map (fun k => startRD + k)).filter
      (fun rd => isWeekday rd)

/-! ## Issues and series plumbing (src/dq/rules/base.py and shared pandas idioms) -/

/-- The `Issue` dataclass: one detected anomaly.  The `details` payload
keeps the numeric evidence entries of the source's dict (string-valued
entries such as `mode` are determined by `rule` and are omitted). -/
structure Issue where
  rule : String
  obs_date : Nat
  severity : ℤ
  suggested_action : String
  details : List (String × ℚ)
deriving DecidableEq, Repr

/-- Insertion sort of observations by date (pandas `sort_index`). -/
def sortByDate (s : Series) : Series :=
  s.insertionSort (fun p q => p.1 ≤ q.1)

/-- Last value at date `d` in `s` (pandas `groupby(level=0).last()` keeps
the last observation per date); defaults to 0 when `d` is absent. -/
def lastValAt (s : Series) (d : Nat) : ℚ :=
  (s.filter (fun p => p.1 == d)).foldl (fun _ p => p.2) 0

/-- `_dedup`: drop nulls (implicit), sort by date, keep the last
observation per date.  Output is sorted with pairwise-distinct dates. -/
def dedupKeepLast (s : Series) : Series :=
  (((s.map Prod.fst).dedup).insertionSort (· ≤ ·)).map (fun d => (d, lastValAt s d))

/-- First value found at date `d` (pandas `.loc[d]` for unique indexes). -/
def lookupDate (s : Series) (d : Nat) : Option ℚ :=
  (s.find? (fun p => p.1 == d)).map Prod.snd

/-- Inner join of two series on dates, as built by
`pd.DataFrame({"a": a, "b": b}).dropna()`. -/
def innerJoin (a b : Series) : List (Nat × ℚ × ℚ) :=
  a.filterMap (fun p => (lookupDate b p.1).map (fun v => (p.1, p.2, v)))

/-- Restrict a series to the closed date window (the engine's
`.loc[(index >= start) & (index <= end)]`). -/
def sliceWindow (s : Series) (startRD endRD : Nat) : Series :=
  s.filter (fun p => startRD ≤ p.1 && p.1 ≤ endRD)

/-! ## Missing-dates rule (src/dq/rules/gaps.py, MissingBdaysRule) -/

/-- `MissingBdaysRule.run`: one issue per expected date absent from the
observed dates, severity 55, suggested action "interpolate"; an empty
series yields no issues.  `expected` models the Python set by a list of
its elements; `none` falls back to weekdays between the first and last
observed dates (`pd.bdate_range`). -/
def missing_bdays_run (series : Series) (expected : Option (List Nat)) : List Issue :=
  let s := sortByDate series
  if s = [] then []
  else
    let observed := s.map Prod.fst
    let exp := match expected with
      | some e => e
      | none =>
          let lo := (observed.insertionSort (· ≤ ·)).headD 0
          let hi := (observed.insertionSort (· ≥ ·)).headD 0
          ((List.range (hi + 1 - lo)).map (fun k => lo + k)).filter (fun rd => isWeekday rd)
    let missing := (exp.filter (fun d => !(observed.contains d))).insertionSort (· ≤ ·)
    missing.map (fun d => Issue.mk "gaps.missing_bdays" d 55 "interpolate" [])

/-! ## Staleness rule (src/dq/rules/gaps.py, StaleRule) -/

/-- Parameters of `StaleRule` (defaults `min_streak = 3`, `atol = 0`). -/
structure StaleCfg where
  min_streak : Nat
  atol : ℚ
deriving DecidableEq, Repr

/-- Default `StaleRule()` configuration. -/
def staleDefault : StaleCfg := ⟨3, 0⟩

/-- The "value unchanged from previous" flags: `(s.diff().abs() <= atol)`
with the first position `fillna(False)`. -/
def unchangedFlags (atol : ℚ) : Series → List Bool
  | [] => []
  | p :: rest =>
      false :: (rest.zip (p :: rest)).map (fun q => decide (|q.1.2 - q.2.2| ≤ atol))

/-- The streak-emitting loop of `StaleRule.run`. -/
def staleLoop (minStreak : Nat) : List (Obs × Bool) → Nat → List Issue
  | [], _ => []
  | (p, flag) :: rest, streak =>
      if flag then
        let streak := streak + 1
        if minStreak ≤ streak then
          Issue.mk "gaps.stale" p.1 (min 100 (30 + 12 * (streak : ℤ))) "review"
              [("streak", (streak : ℚ))]
            :: staleLoop minStreak rest streak
        else staleLoop minStreak rest streak
      else staleLoop minStreak rest 0

/-- `StaleRule.run`: sort, flag unchanged transitions, and emit an issue
for every date whose running streak has reached `min_streak`. -/
def stale_run (cfg : StaleCfg) (series : Series) : List Issue :=
  let s := sortByDate series
  if s.length < cfg.min_streak + 1 then []
  else staleLoop cfg.min_streak (s.zip (unchangedFlags cfg.atol s)) 0

/-! ## Numeric environment

`np.log` and rolling Pearson correlation are real-valued and have no
rational closed form; they are modelled as an explicit environment.
Every theorem below holds for an arbitrary environment, so in
particular for the true logarithm and correlation. -/

/-- Abstraction of the float-valued library functions used by the rules. -/
structure NumEnv where
  log : ℚ → ℚ
  corr : List (ℚ × ℚ) → ℚ

/-- A concrete environment used to instantiate witnesses; the claims
settled here never depend on the values of `log` or `corr`. -/
def idNumEnv : NumEnv := ⟨id, fun _ => 0⟩

/-! ## Spike rule (src/dq/rules/spikes.py, HampelRule) -/

/-- Parameters of `HampelRule` (defaults `window = 21`, `n_sigmas = 6`). -/
structure HampelCfg where
  window : Nat
  n_sigmas : ℚ
deriving DecidableEq, Repr

/-- Default `HampelRule()` configuration. -/
def hampelDefaultCfg : HampelCfg := ⟨21, 6⟩

/-- Median of a list of rationals, as pandas computes it: middle element
of the sorted list, or the mean of the two middle elements. -/
def medianQ (l : List ℚ) : ℚ :=
  let s := l.insertionSort (· ≤ ·)
  if l.length % 2 = 1 then s.getD (l.length / 2) 0
  else (s.getD (l.length / 2 - 1) 0 + s.getD (l.length / 2) 0) / 2

/-- `min_periods = max(10, window // 3)` of the rolling statistics. -/
def hampelMinPeriods (w : Nat) : Nat := max 10 (w / 3)

/-- Index window of a centered rolling statistic of width `w` at
position `k` of a length-`n` sequence (pandas `rolling(w, center=True)`:
`(w-1)/2` positions before `k` and `w/2` after, clipped to the ends). -/
def centerWindow (n w k : Nat) : List Nat :=
  let lo := k - (w - 1) / 2
  let hi := min (n - 1) (k + w / 2)
  (List.range (hi + 1 - lo)).map (fun j => lo + j)

/-- Centered rolling median of `xs` at position `k` (`none` models NaN
when fewer than `min_periods` observations fall in the window). -/
def rollCenterMedian (xs : List ℚ) (w k : Nat) : Option ℚ :=
  let win := (centerWindow xs.length w k).map (fun j => xs.getD j 0)
  if hampelMinPeriods w ≤ win.length then some (medianQ win) else none

/-- Centered rolling median of the absolute residuals `|x - med|`
(the rolling MAD); positions whose own median is NaN are skipped inside
the window, as pandas' rolling median skips NaN entries. -/
def rollMad (xs : List ℚ) (w k : Nat) : Option ℚ :=
  let vals := (centerWindow xs.length w k).filterMap
    (fun j => (rollCenterMedian xs w j).map (fun m => |xs.getD j 0 - m|))
  if hampelMinPeriods w ≤ vals.length then some (medianQ vals) else none

/-- Robust z-score at position `k`: `(x - med) / (1.4826 * mad)`, `none`
where the median or MAD is NaN or the scale is zero (the source replaces
a zero MAD by NaN before dividing). -/
def robustZ (xs : List ℚ) (w k : Nat) : Option ℚ :=
  match rollCenterMedian xs w k, rollMad xs w k with
  | some m, some md =>
      let scale := 14826 / 10000 * md
      if scale = 0 then none else some ((xs.getD k 0 - m) / scale)
  | _, _ => none

/-- The issue built by `HampelRule.run` for date `d` and z-score `z`. -/
def hampelIssue (cfg : HampelCfg) (d : Nat) (z : ℚ) : Issue :=
  Issue.mk "spikes.hampel" d (⌊min (100 : ℚ) (40 + 10 * |z|)⌋)
    (if |z| < 12 then "winsorize" else "remove")
    [("z_robust", z), ("window", (cfg.window : ℚ)), ("n_sigmas", cfg.n_sigmas)]

/-- `HampelRule.run`: no issues below 30 non-null points, else one issue
per position whose robust z-score is defined and at least `n_sigmas` in
absolute value. -/
def hampel_run (cfg : HampelCfg) (series : Series) : List Issue :=
  let xs := series.map Prod.snd
  if series.length < 30 then []
  else
    (List.range series.length).filterMap (fun k =>
      match robustZ xs cfg.window k with
      | some z =>
          if cfg.n_sigmas ≤ |z| then
            some (hampelIssue cfg ((series.map Prod.fst).getD k 0) z)
          else none
      | none => none)

/-! ## Reconciliation rule (src/dq/rules/reconcile.py, ReconcileRule) -/

/-- Parameters of `ReconcileRule`; the constructor stores
`consecutive = max(1, consecutive)`, so configurations reachable from
the source always have `1 ≤ consecutive`. -/
structure ReconCfg where
  abs_tol : ℚ
  pct_tol : ℚ
  ret_tol : ℚ
  consecutive : Nat
  use_log_returns : Bool
deriving DecidableEq, Repr

/-- Default `ReconcileRule()` configuration
(`abs_tol=0.0005`, `pct_tol=0.002`, `ret_tol=0.003`, `consecutive=3`). -/
def reconDefaultCfg : ReconCfg := ⟨1/2000, 1/500, 3/1000, 3, true⟩

/-- Asset-class calibration at the top of `ReconcileRule.run`:
fx uses return tolerance 0.004 with 3 consecutive breaches, equities
0.006 with 2; otherwise the configured values. -/
def reconCalibration (cfg : ReconCfg) (asset_class : String) : ℚ × Nat :=
  if asset_class = "fx" then (1/250, 3)
  else if asset_class = "equities" then (3/500, 2)
  else (cfg.ret_tol, cfg.consecutive)

/-- Mode defaulting: empty mode means returns for fx, equities and
commodities, level otherwise. -/
def reconMode (asset_class mode : String) : String :=
  if mode = "" then
    if asset_class = "fx" ∨ asset_class = "equities" ∨ asset_class = "commodities"
    then "returns" else "level"
  else mode

/-- `_returns`: dedup, then log-differences when log returns are enabled
and every value is strictly positive, else `pct_change`; the leading NaN
return is dropped (the source drops it in the later `dropna`). -/
def returnsOf (env : NumEnv) (useLog : Bool) (s : Series) : Series :=
  let s := dedupKeepLast s
  let vals := s.map Prod.snd
  let rets :=
    if useLog && vals.all (fun v => 0 < v)
    then (vals.tail.zip vals).map (fun p => env.log p.1 - env.log p.2)
    else (vals.tail.zip vals).map (fun p => p.1 / p.2 - 1)
  (s.map Prod.fst).tail.zip rets

/-- One step of the persistence filter: `streak & streak.shift(1).fillna(False)`. -/
def streakStep (bs : List Bool) : List Bool :=
  bs.zipWith and (false :: bs)

/-- The persistence filter: a position stays flagged only if it and the
preceding `k - 1` positions all breach. -/
def streakAnd (k : Nat) (bs : List Bool) : List Bool :=
  streakStep^[k - 1] bs

/-- Severity curve shared by both reconciliation modes:
`int(min(100, 70 + 30 * min(1, metric / (5 * tol))))`. -/
def reconSeverity (tol metric : ℚ) : ℤ :=
  ⌊min (100 : ℚ) (70 + 30 * min 1 (metric / (5 * tol)))⌋

/-- The returns-mode block of `ReconcileRule.run` over the aligned rows. -/
def reconReturnsIssues (env : NumEnv) (useLog : Bool) (rt : ℚ) (consec : Nat)
    (rows : List (Nat × ℚ × ℚ)) : List Issue :=
  let ra := returnsOf env useLog (rows.map (fun r => (r.1, r.2.1)))
  let rb := returnsOf env useLog (rows.map (fun r => (r.1, r.2.2)))
  let rdiff : Series := ra.zipWith (fun p q => (p.1, |p.2 - q.2|)) rb
  if rdiff = [] then []
  else
    let flags := streakAnd consec (rdiff.map (fun p => decide (rt < p.2)))
    ((rdiff.zip flags).filter (fun pb => pb.2)).map (fun pb =>
      Issue.mk "reconcile.returns_diff" pb.1.1 (reconSeverity rt pb.1.2)
        "source_switch"
        [("ret_diff", pb.1.2), ("ret_tol", rt),
         ("a_ret", (lookupDate ra pb.1.1).getD 0),
         ("b_ret", (lookupDate rb pb.1.1).getD 0),
         ("consecutive", (consec : ℚ))])

/-- The level-mode block of `ReconcileRule.run` over the aligned rows:
absolute difference and percentage difference (NaN where the primary
level is zero, modelled by `none`), joint breach, persistence filter. -/
def reconLevelIssues (cfg : ReconCfg) (rows : List (Nat × ℚ × ℚ)) : List Issue :=
  let entries := rows.map (fun r =>
    (r.1, |r.2.1 - r.2.2|,
     if |r.2.1| = 0 then (none : Option ℚ) else some (|r.2.1 - r.2.2| / |r.2.1|)))
  let breach := entries.map (fun e =>
    decide (cfg.abs_tol < e.2.1) &&
      (match e.2.2 with | some v => decide (cfg.pct_tol < v) | none => false))
  let flags := streakAnd cfg.consecutive breach
  ((entries.zip flags).filter (fun eb => eb.2)).map (fun eb =>
    let pdiff := match eb.1.2.2 with | some v => v | none => eb.1.2.1
    Issue.mk "reconcile.abs_pct" eb.1.1 (reconSeverity cfg.pct_tol pdiff)
      "source_switch"
      [("abs_diff", eb.1.2.1), ("pct_diff", pdiff),
       ("abs_tol", cfg.abs_tol), ("pct_tol", cfg.pct_tol),
       ("consecutive", (cfg.consecutive : ℚ))])

/-- `ReconcileRule.run`.  `asset_class` and `mode` arrive as the already
lower-cased kwargs (absent kwargs are the empty string, as produced by
`str(kwargs.get(...) or "")`). -/
def reconcile_run (env : NumEnv) (cfg : ReconCfg) (asset_class mode : String)
    (series : Series) (other : Option Series) : List Issue :=
  match other with
  | none => []
  | some o =>
    let rows := innerJoin (dedupKeepLast series) (dedupKeepLast o)
    if rows = [] then []
    else if reconMode asset_class mode = "returns" then
      reconReturnsIssues env cfg.use_log_returns (reconCalibration cfg asset_class).1
        (reconCalibration cfg asset_class).2 rows
    else reconLevelIssues cfg rows

/-! ## FX triangle rule (src/dq/rules/relations.py, FXTriangleRule) -/

/-- Parameters of `FXTriangleRule` (defaults `threshold_abs_pct = 0.005`,
`consecutive = 3`); the constructor clamps `consecutive` to at least 1. -/
structure FxTriCfg where
  threshold_abs_pct : ℚ
  consecutive : Nat
  rule_suffix : Option String
deriving DecidableEq, Repr

/-- `FXTriangleRule(rule_suffix=sfx)` with default thresholds. -/
def fxTriDefaultCfg (sfx : Option String) : FxTriCfg := ⟨1/200, 3, sfx⟩

/-- Aligned rows (date, ab, bc, ac) of the three deduplicated legs. -/
def fxAlign (ab bc ac : Series) : List (Nat × ℚ × ℚ × ℚ) :=
  (dedupKeepLast ab).filterMap (fun p =>
    match lookupDate (dedupKeepLast bc) p.1, lookupDate (dedupKeepLast ac) p.1 with
    | some v2, some v3 => some (p.1, p.2, v2, v3)
    | _, _ => none)

/-- Relative error of a triangle row: `|ab * bc / ac - 1|`. -/
def fxAbsPct (r : Nat × ℚ × ℚ × ℚ) : ℚ :=
  |r.2.1 * r.2.2.1 / r.2.2.2 - 1|

/-- The issue built by `FXTriangleRule.run` for an aligned row. -/
def fxTriIssue (cfg : FxTriCfg) (r : Nat × ℚ × ℚ × ℚ) : Issue :=
  let ratio := fxAbsPct r / cfg.threshold_abs_pct
  Issue.mk
    (match cfg.rule_suffix with
     | some sfx => "relations.fx_triangle." ++ sfx
     | none => "relations.fx_triangle")
    r.1 (⌊min (100 : ℚ) (60 + 40 * min 1 ((ratio - 1) / 4))⌋) "source_switch"
    [("abs_pct", fxAbsPct r), ("threshold", cfg.threshold_abs_pct),
     ("ratio", ratio), ("consecutive", (cfg.consecutive : ℚ)),
     ("implied", r.2.1 * r.2.2.1), ("observed", r.2.2.2)]

/-- `FXTriangleRule.run`.  The first positional `series` argument (the
orchestrator's primary series) is accepted and, as in the source, never
read; legs absent from kwargs (`none`) yield no issues. -/
def fx_triangle_run (cfg : FxTriCfg) (series : Series)
    (ab bc ac : Option Series) : List Issue :=
  match ab, bc, ac with
  | some ab, some bc, some ac =>
    let rows := fxAlign ab bc ac
    if rows = [] then []
    else
      let flags := streakAnd cfg.consecutive
        (rows.map (fun r => decide (cfg.threshold_abs_pct < fxAbsPct r)))
      ((rows.zip flags).filter (fun rb => rb.2)).map (fun rb => fxTriIssue cfg rb.1)
  | _, _, _ => []

/-! ## Correlation-break rule (src/dq/rules/relations.py, CorrBreakRule) -/

/-- Parameters of `CorrBreakRule` (defaults `window = 60`,
`min_abs_corr = 0.2`). -/
structure CorrCfg where
  window : Nat
  min_abs_corr : ℚ
deriving DecidableEq, Repr

/-- Default `CorrBreakRule()` configuration. -/
def corrDefaultCfg : CorrCfg := ⟨60, 1/5⟩

/-- `CorrBreakRule.run`: below `window + 10` aligned points no issues;
otherwise each full rolling window's Pearson correlation (supplied by
the environment) below `min_abs_corr` in absolute value is flagged. -/
def corr_break_run (env : NumEnv) (cfg : CorrCfg) (series : Series)
    (peer : Option Series) : List Issue :=
  match peer with
  | none => []
  | some peer =>
    let rows := innerJoin (sortByDate series) (sortByDate peer)
    if rows.length < cfg.window + 10 then []
    else
      (List.range rows.length).filterMap (fun k =>
        if cfg.window ≤ k + 1 then
          let win := ((List.range cfg.window).map (fun j => k + 1 - cfg.window + j)).map
            (fun j => ((rows.getD j (0, 0, 0)).2.1, (rows.getD j (0, 0, 0)).2.2))
          let c := env.corr win
          if |c| < cfg.min_abs_corr then
            some (Issue.mk "relations.corr_break" (rows.getD k (0, 0, 0)).1
              (⌊min (100 : ℚ) (70 + 50 * (cfg.min_abs_corr - |c|) /
                  max (1 / 1000000) cfg.min_abs_corr)⌋)
              "review" [("rolling_corr", c), ("window", (cfg.window : ℚ))])
          else none
        else none)

/-! ## Orchestrator (src/dq/engine.py) -/

/-- `_pick_sources`: primary is the first preferred source present for
the asset class, falling back to the lexicographically smallest key;
secondary is the first secondary-preferred source present and different
from the primary. -/
def pick_sources (asset_class : String) (series_by_src : List (String × Series)) :
    String × Option String :=
  let prefs_primary : List String :=
    if asset_class = "rates" then ["fred", "stooq"]
    else if asset_class = "fx" then ["twelvedata", "stooq", "ecb_fx"]
    else if asset_class = "equities" then ["twelvedata", "stooq", "yfinance"]
    else if asset_class = "commodities" then ["twelvedata", "stooq", "yfinance"]
    else []
  let prefs_secondary : List String :=
    if asset_class = "rates" then ["stooq", "twelvedata"]
    else if asset_class = "fx" then ["stooq", "twelvedata", "ecb_fx"]
    else if asset_class = "equities" then ["stooq", "twelvedata"]
    else if asset_class = "commodities" then ["stooq", "twelvedata"]
    else []
  let keys := series_by_src.map Prod.fst
  let primary := match prefs_primary.find? (fun p => keys.contains p) with
    | some p => p
    | none => (keys.insertionSort (fun a b => a < b ∨ a = b)).headD ""
  let secondary := prefs_secondary.find? (fun p => keys.contains p ∧ p ≠ primary)
  (primary, secondary)

/-- A persisted `DQRun` row. -/
structure DQRunRec where
  id : Nat
  asset_class : String
  risk_factor_id : String
  asof : Nat
  lookback_days : Nat
  finished_at : Option Nat
deriving DecidableEq, Repr

/-- A persisted `DQException` row. -/
structure DQExcRec where
  dq_run_id : Nat
  risk_factor_id : String
  rule : String
  obs_date : Nat
  severity : ℤ
  status : String
  suggested_action : String
deriving DecidableEq, Repr

/-- The persistence layer visible to the engine: run rows and exception
rows.  A fresh run id is the next autoincrement value. -/
structure Store where
  runs : List DQRunRec
  excs : List DQExcRec
deriving DecidableEq, Repr

/-- The engine's read-only surroundings: the risk-factor registry, the
series store (`load_series`), the wall clock, and the numeric
environment. -/
structure EngineEnv where
  num : NumEnv
  now : Nat
  risk_factors : List String
  series_store : String → List (String × Series)

/-- The two `ValueError`s `run_dq` can raise: unknown risk factor
(before any run row exists) and no observations (after the run row was
created). -/
inductive EngineError where
  | unknownRiskFactor
  | noObservations
deriving DecidableEq, Repr

/-- Look up the series of one source in a `load_series` result. -/
def sourceSeries (sbs : List (String × Series)) (src : String) : Series :=
  ((sbs.find? (fun p => p.1 == src)).map Prod.snd).getD []

/-- The FX-triangle block of `run_dq`: vendor buckets are tried in
priority order (twelvedata, stooq, then the mixed ecb bucket) and only
the first bucket with all three legs available is evaluated. -/
def fxTriangleBlock (env : EngineEnv) (primary : Series) : List Issue :=
  let eurusd := env.series_store "EURUSD"
  let usdgbp := env.series_store "USDGBP"
  let eurgbp := env.series_store "EURGBP"
  let has := fun (m : List (String × Series)) (src : String) =>
    (m.find? (fun p => p.1 == src)).isSome
  if has eurusd "twelvedata" ∧ has usdgbp "twelvedata" ∧ has eurgbp "twelvedata" then
    fx_triangle_run (fxTriDefaultCfg (some "twelvedata")) primary
      (some (sourceSeries eurusd "twelvedata")) (some (sourceSeries usdgbp "twelvedata"))
      (some (sourceSeries eurgbp "twelvedata"))
  else if has eurusd "stooq" ∧ has usdgbp "stooq" ∧ has eurgbp "stooq" then
    fx_triangle_run (fxTriDefaultCfg (some "stooq")) primary
      (some (sourceSeries eurusd "stooq")) (some (sourceSeries usdgbp "stooq"))
      (some (sourceSeries eurgbp "stooq"))
  else if has eurusd "ecb_fx" ∧ has usdgbp "ecb_fx_cross" ∧ has eurgbp "ecb_fx" then
    fx_triangle_run (fxTriDefaultCfg (some "ecb")) primary
      (some (sourceSeries eurusd "ecb_fx")) (some (sourceSeries usdgbp "ecb_fx_cross"))
      (some (sourceSeries eurgbp "ecb_fx"))
  else []

/-- Steps 4-8 of `run_dq`: expected dates, source selection, windowing,
and every rule evaluation, including the reconciliation call
`RECON.run(primary, other_series=other)` exactly as the source makes it
(no `asset_class` or `mode` keyword is passed, so the rule sees the
empty string for both). -/
def engineIssues (env : EngineEnv) (asset_class risk_factor_id : String)
    (asof lookback_days : Nat) (sbs : List (String × Series)) : List Issue :=
  let start := asof - lookback_days
  let expected := expected_dates asset_class start asof
  let pick := pick_sources asset_class sbs
  let primary := sliceWindow (sourceSeries sbs pick.1) start asof
  let base :=
    hampel_run hampelDefaultCfg primary ++
    missing_bdays_run primary (some expected) ++
    stale_run staleDefault primary
  let withRecon := base ++
    match pick.2 with
    | some other_src =>
        reconcile_run env.num reconDefaultCfg "" "" primary
          (some (sliceWindow (sourceSeries sbs other_src) start asof))
    | none => []
  let withCorr := withRecon ++
    (if asset_class = "rates" ∧ risk_factor_id = "US10Y" then
      let peers := env.series_store "US2Y"
      if peers = [] then []
      else
        let s2 := sourceSeries peers
          (((peers.map Prod.fst).insertionSort (fun a b => a < b ∨ a = b)).headD "")
        corr_break_run env.num corrDefaultCfg primary (some s2)
    else [])
  withCorr ++ (if asset_class = "fx" then fxTriangleBlock env primary else [])

/-- `run_dq`: validate the risk factor (unknown id raises with no run
row), create the run row with `finished_at` null, raise if no source
series exist, evaluate every rule, persist the issues as open
exceptions, and set `finished_at` only at the very end. -/
def run_dq (env : EngineEnv) (store : Store) (asset_class risk_factor_id : String)
    (asof lookback_days : Nat) : Except EngineError Nat × Store :=
  if risk_factor_id ∉ env.risk_factors then
    (Except.error EngineError.unknownRiskFactor, store)
  else
    let run_id := store.runs.length
    let store1 : Store :=
      ⟨store.runs ++ [⟨run_id, asset_class, risk_factor_id, asof, lookback_days, none⟩],
       store.excs⟩
    let sbs := env.series_store risk_factor_id
    if sbs = [] then (Except.error EngineError.noObservations, store1)
    else
      let issues := engineIssues env asset_class risk_factor_id asof lookback_days sbs
      let store2 : Store :=
        ⟨store1.runs,
         store1.excs ++ issues.map (fun i =>
           ⟨run_id, risk_factor_id, i.rule, i.obs_date, i.severity, "open",
            i.suggested_action⟩)⟩
      let store3 : Store :=
        ⟨store2.runs.map (fun r =>
           if r.id = run_id then
             ⟨r.id, r.asset_class, r.risk_factor_id, r.asof, r.lookback_days,
              some env.now⟩
           else r),
         store2.excs⟩
      (Except.ok run_id, store3)

/-! ## Shared lemmas about the persistence filter and list plumbing -/

/-- `getD` distributes over pointwise boolean conjunction of lists. -/
theorem zipWith_and_getD (xs : List Bool) : ∀ (ys : List Bool) (i : Nat),
    (List.zipWith and xs ys).getD i false = (xs.getD i false && ys.getD i false) := by
  induction xs with
  | nil => intro ys i; simp
  | cons x xs ih =>
      intro ys i
      cases ys with
      | nil => simp
      | cons y ys =>
          cases i with
          | zero => simp
          | succ j => simpa using ih ys j

/-- One persistence step in positional form: a position survives iff it
and its predecessor both breach. -/
theorem streakStep_getD (bs : List Bool) (i : Nat) :
    (streakStep bs).getD i false =
      (bs.getD i false && (false :: bs).getD i false) := by
  simpa [streakStep] using zipWith_and_getD bs (false :: bs) i

/-- The persistence step preserves list length. -/
theorem streakStep_length (bs : List Bool) : (streakStep bs).length = bs.length := by
  simp [streakStep]

/-- The persistence filter preserves list length. -/
theorem streakAnd_length (k : Nat) (bs : List Bool) :
    (streakAnd k bs).length = bs.length := by
  unfold streakAnd
  induction k - 1 with
  | zero => simp
  | succ m ih => rw [Function.iterate_succ_apply', streakStep_length, ih]

/-- A position flagged by the persistence filter breaches on its own. -/
theorem streakAnd_imp (k : Nat) (bs : List Bool) (i : Nat)
    (h : (streakAnd k bs).getD i false = true) : bs.getD i false = true := by
  unfold streakAnd at h
  generalize hm : k - 1 = m at h
  clear hm
  induction m with
  | zero => simpa using h
  | succ m ih =>
      rw [Function.iterate_succ_apply', streakStep_getD] at h
      exact ih ((Bool.and_eq_true _ _).mp h).1

/-- Pointwise conjunction with an all-false left list is all-false. -/
theorem zipWith_and_all_false (xs : List Bool) :
    ∀ (ys : List Bool), (∀ x ∈ xs, x = false) →
      ∀ z ∈ List.zipWith and xs ys, z = false := by
  induction xs with
  | nil => intro ys _ z hz; simp at hz
  | cons x xs ih =>
      intro ys hx z hz
      cases ys with
      | nil => simp at hz
      | cons y ys =>
          rcases List.mem_cons.mp hz with rfl | hz'
          · simp [hx x (by simp)]
          · exact ih ys (fun a ha => hx a (by simp [ha])) z hz'

/-- The persistence step maps an all-false list to an all-false list. -/
theorem streakStep_all_false (bs : List Bool) (h : ∀ x ∈ bs, x = false) :
    ∀ x ∈ streakStep bs, x = false :=
  zipWith_and_all_false bs (false :: bs) h

/-- The persistence filter maps an all-false breach list to all-false flags. -/
theorem streakAnd_all_false (k : Nat) (bs : List Bool) (h : ∀ x ∈ bs, x = false) :
    ∀ x ∈ streakAnd k bs, x = false := by
  unfold streakAnd
  induction k - 1 with
  | zero => simpa using h
  | succ m ih =>
      rw [Function.iterate_succ_apply']
      exact streakStep_all_false _ ih

/-- Filtering a zip on all-false flags yields nothing. -/
theorem zip_filter_all_false {α : Type} (l : List α) :
    ∀ (flags : List Bool), (∀ x ∈ flags, x = false) →
      (l.zip flags).filter (fun p => p.2) = [] := by
  induction l with
  | nil => intro flags _; simp
  | cons x xs ih =>
      intro flags hf
      cases flags with
      | nil => simp
      | cons b bs =>
          have hb : b = false := hf b (by simp)
          subst hb
          simpa using ih bs (fun x hx => hf x (by simp [hx]))

/-- Zipping a list with itself and taking absolute differences of the
values yields all-zero values. -/
theorem zipWith_self_absdiff (l : Series) :
    (List.zipWith (fun (p q : Obs) => (p.1, |p.2 - q.2|)) l l) =
      l.map (fun p => (p.1, (0 : ℚ))) := by
  induction l with
  | nil => rfl
  | cons p l ih => simp [ih]

/-- In a series with pairwise-distinct dates, date lookup of a member
finds that member's value. -/
theorem lookupDate_of_nodup (a : Series) (h : (a.map Prod.fst).Nodup) :
    ∀ p ∈ a, lookupDate a p.1 = some p.2 := by
  induction a with
  | nil => intro p hp; simp at hp
  | cons q a ih =>
      rw [List.map_cons, List.nodup_cons] at h
      intro p hp
      rcases List.mem_cons.mp hp with rfl | hp'
      · unfold lookupDate
        rw [List.find?_cons_of_pos _ (by simp)]
        rfl
      · have hne : q.1 ≠ p.1 := by
          intro hEq
          exact h.1 (hEq ▸ List.mem_map_of_mem Prod.fst hp')
        have := ih h.2 p hp'
        unfold lookupDate at this ⊢
        rw [List.find?_cons_of_neg _ (by simp [hne])]
        exact this

/-- Inner-joining a nodup-dated series with itself pairs each value
with itself. -/
theorem innerJoin_self (a : Series) (h : (a.map Prod.fst).Nodup) :
    innerJoin a a = a.map (fun p => (p.1, p.2, p.2)) := by
  have hmap : ∀ p ∈ a, (lookupDate a p.1).map (fun v => (p.1, p.2, v)) =
      some (p.1, p.2, p.2) := by
    intro p hp
    rw [lookupDate_of_nodup a h p hp]
    rfl
  calc innerJoin a a
      = a.filterMap (fun p => some (p.1, p.2, p.2)) := List.filterMap_congr hmap
    _ = a.map (fun p => (p.1, p.2, p.2)) := List.filterMap_eq_map _ ▸ rfl

/-- The dates of a deduplicated series are pairwise distinct. -/
theorem dedupKeepLast_dates_nodup (s : Series) :
    ((dedupKeepLast s).map Prod.fst).Nodup := by
  unfold dedupKeepLast
  rw [List.map_map]
  have : (Prod.fst ∘ fun d => ((d, lastValAt s d) : Obs)) = id := rfl
  rw [this, List.map_id]
  exact ((List.perm_insertionSort _ _).nodup_iff).mpr (List.nodup_dedup _)

/-! ## C10 — the FX triangle rule ignores the primary series -/

/-- C10: the FX Triangle rule's output is completely determined by the
three leg series and the configuration; two invocations differing only
in the primary series argument return identical issue lists (the
primary argument is accepted and never read, exactly as in the source). -/
theorem C10_fx_triangle_ignores_primary (cfg : FxTriCfg) (p1 p2 : Series)
    (ab bc ac : Option Series) :
    fx_triangle_run cfg p1 ab bc ac = fx_triangle_run cfg p2 ab bc ac := rfl

/-- Witness for C10 at concrete inputs. -/
theorem C10_witness :
    fx_triangle_run (fxTriDefaultCfg none) [(1, 5)]
        (some [(1, 1)]) (some [(1, 1)]) (some [(1, 1)]) =
      fx_triangle_run (fxTriDefaultCfg none) []
        (some [(1, 1)]) (some [(1, 1)]) (some [(1, 1)]) :=
  C10_fx_triangle_ignores_primary (fxTriDefaultCfg none) [(1, 5)] []
    (some [(1, 1)]) (some [(1, 1)]) (some [(1, 1)])

/-! ## C6 — staleness rule -/

/-- C6: with the default configuration (`min_streak = 3`, `atol = 0`), a
series of 2 changing values followed by 5 identical values yields
exactly the issues at streak positions 3, 4 and 5 whose severities
follow min(100, 30 + 12·streak) and strictly increase; and any series
shorter than `min_streak + 1` points yields no issues. -/
theorem C6_staleness (s : Series) (h : s.length < 4) :
    stale_run staleDefault [(10, 1), (11, 2), (12, 2), (13, 2), (14, 2), (15, 2), (16, 2)] =
      [Issue.mk "gaps.stale" 14 66 "review" [("streak", 3)],
       Issue.mk "gaps.stale" 15 78 "review" [("streak", 4)],
       Issue.mk "gaps.stale" 16 90 "review" [("streak", 5)]] ∧
    (66 : ℤ) = min 100 (30 + 12 * 3) ∧ (78 : ℤ) = min 100 (30 + 12 * 4) ∧
    (90 : ℤ) = min 100 (30 + 12 * 5) ∧ (66 : ℤ) < 78 ∧ (78 : ℤ) < 90 ∧
    stale_run staleDefault s = [] := by
  refine ⟨by with_unfolding_all rfl, by decide, by decide, by decide, by decide, by decide, ?_⟩
  unfold stale_run
  have hlen : (sortByDate s).length = s.length := by
    unfold sortByDate
    exact List.length_insertionSort _ s
  rw [if_pos]
  rw [hlen]
  exact h

/-- Witness for C6 at the empty series. -/
theorem C6_witness :
    stale_run staleDefault [(10, 1), (11, 2), (12, 2), (13, 2), (14, 2), (15, 2), (16, 2)] =
      [Issue.mk "gaps.stale" 14 66 "review" [("streak", 3)],
       Issue.mk "gaps.stale" 15 78 "review" [("streak", 4)],
       Issue.mk "gaps.stale" 16 90 "review" [("streak", 5)]] ∧
    (66 : ℤ) = min 100 (30 + 12 * 3) ∧ (78 : ℤ) = min 100 (30 + 12 * 4) ∧
    (90 : ℤ) = min 100 (30 + 12 * 5) ∧ (66 : ℤ) < 78 ∧ (78 : ℤ) < 90 ∧
    stale_run staleDefault [] = [] :=
  C6_staleness [] (by decide)

/-! ## C7 — missing-dates rule -/

/-- C7: for every nonempty series and supplied expected-date set, the
issued dates are exactly the expected dates absent from the observed
dates; every issue carries severity 55 and suggested action
"interpolate"; an empty series yields no issues; and re-running on
equal inputs yields the same issues. -/
theorem C7_missing_dates (s s2 : Series) (e e2 : List Nat) :
    (∀ d : Nat, s ≠ [] →
      (d ∈ (missing_bdays_run s (some e)).map (fun i => i.obs_date) ↔
        d ∈ e ∧ d ∉ s.map Prod.fst)) ∧
    (∀ i ∈ missing_bdays_run s (some e),
      i.severity = 55 ∧ i.suggested_action = "interpolate" ∧ i.rule = "gaps.missing_bdays") ∧
    missing_bdays_run [] (some e) = [] ∧
    (s = s2 → e = e2 →
      missing_bdays_run s (some e) = missing_bdays_run s2 (some e2)) := by
  refine ⟨?_, ?_, rfl, ?_⟩
  · intro d hs
    have hne : sortByDate s ≠ [] := by
      intro hEq
      apply hs
      have h1 := List.length_insertionSort (fun (p q : Obs) => p.1 ≤ q.1) s
      unfold sortByDate at hEq
      rw [hEq] at h1
      exact List.length_eq_zero.mp h1.symm
    unfold missing_bdays_run
    rw [if_neg hne]
    simp only [List.map_map]
    constructor
    · intro hd
      obtain ⟨x, hx, hxd⟩ := List.mem_map.mp hd
      have hx' : x ∈ (e.filter
          (fun d => !((sortByDate s).map Prod.fst).contains d)) :=
        (List.mem_insertionSort _).mp hx
      have := List.mem_filter.mp hx'
      have hobs : x ∉ (sortByDate s).map Prod.fst := by
        simpa using this.2
      refine hxd ▸ ⟨this.1, fun hmem => hobs ?_⟩
      have : (sortByDate s).Perm s := List.perm_insertionSort _ s
      exact ((this.map Prod.fst).mem_iff).mpr hmem
    · intro ⟨hde, hdo⟩
      refine List.mem_map.mpr ⟨d, ?_, rfl⟩
      refine (List.mem_insertionSort _).mpr (List.mem_filter.mpr ⟨hde, ?_⟩)
      have hperm : (sortByDate s).Perm s := List.perm_insertionSort _ s
      have : d ∉ (sortByDate s).map Prod.fst := fun hmem =>
        hdo (((hperm.map Prod.fst).mem_iff).mp hmem)
      simpa using this
  · intro i hi
    unfold missing_bdays_run at hi
    by_cases hne : sortByDate s = []
    · rw [if_pos hne] at hi; simp at hi
    · rw [if_neg hne] at hi
      obtain ⟨d, _, rfl⟩ := List.mem_map.mp hi
      exact ⟨rfl, rfl, rfl⟩
  · intro h1 h2; rw [h1, h2]

/-- Witness for C7 at concrete inputs. -/
theorem C7_witness :
    (6 ∈ (missing_bdays_run [(5, 1), (7, 2)] (some [5, 6, 7, 8])).map
        (fun i => i.obs_date) ↔
      6 ∈ [5, 6, 7, 8] ∧ 6 ∉ ([(5, 1), (7, 2)] : Series).map Prod.fst) ∧
    missing_bdays_run [] (some [5, 6, 7, 8]) = [] := by
  have h := C7_missing_dates [(5, 1), (7, 2)] [(5, 1), (7, 2)] [5, 6, 7, 8] [5, 6, 7, 8]
  exact ⟨h.1 6 (by decide), h.2.2.1⟩

/-! ## C2 — run lifecycle -/

/-- C2: an unknown risk factor raises before any run row is created; a
known risk factor with zero source series raises after the run row was
created, its `finished_at` still null; and when evaluation completes
without error, the run row's `finished_at` is set. -/
theorem C2_run_lifecycle (env : EngineEnv) (store : Store) (ac rf : String)
    (asof lb : Nat) :
    (rf ∉ env.risk_factors →
      run_dq env store ac rf asof lb = (Except.error EngineError.unknownRiskFactor, store)) ∧
    (rf ∈ env.risk_factors → env.series_store rf = [] →
      run_dq env store ac rf asof lb =
        (Except.error EngineError.noObservations,
         ⟨store.runs ++ [⟨store.runs.length, ac, rf, asof, lb, none⟩], store.excs⟩)) ∧
    (rf ∈ env.risk_factors → env.series_store rf ≠ [] →
      (∀ r ∈ store.runs, r.id ≠ store.runs.length) →
      (run_dq env store ac rf asof lb).1 = Except.ok store.runs.length ∧
      (run_dq env store ac rf asof lb).2.runs =
        store.runs ++ [⟨store.runs.length, ac, rf, asof, lb, some env.now⟩]) := by
  refine ⟨?_, ?_, ?_⟩
  · intro h
    unfold run_dq
    rw [if_pos h]
  · intro h1 h2
    unfold run_dq
    rw [if_neg (not_not_intro h1)]
    simp only [h2, if_pos]
  · intro h1 h2 h3
    have hold : store.runs.map
        (fun r => if r.id = store.runs.length then
          (⟨r.id, r.asset_class, r.risk_factor_id, r.asof, r.lookback_days,
            some env.now⟩ : DQRunRec) else r) = store.runs := by
      calc store.runs.map _ = store.runs.map id :=
            List.map_congr_left (fun r hr => by rw [if_neg (h3 r hr)]; rfl)
        _ = store.runs := List.map_id store.runs
    unfold run_dq
    rw [if_neg (not_not_intro h1)]
    simp only [if_neg h2]
    refine ⟨by trivial, ?_⟩
    simp only [List.map_append, hold, List.map_cons, List.map_nil, if_pos rfl]
    rfl

/-- Concrete environment with one registered risk factor and no series. -/
def c2EnvEmpty : EngineEnv := ⟨idNumEnv, 999, ["X"], fun _ => []⟩

/-- Concrete environment with one registered risk factor and one source. -/
def c2EnvOk : EngineEnv :=
  ⟨idNumEnv, 999, ["X"],
   fun rf => if rf == "X" then [("stooq", [(103, 5), (104, 6)])] else []⟩

/-- Witness for C2: all three lifecycle outcomes at concrete inputs. -/
theorem C2_witness :
    run_dq c2EnvEmpty ⟨[], []⟩ "commodities" "Y" 104 2 =
      (Except.error EngineError.unknownRiskFactor, ⟨[], []⟩) ∧
    run_dq c2EnvEmpty ⟨[], []⟩ "commodities" "X" 104 2 =
      (Except.error EngineError.noObservations,
       ⟨[⟨0, "commodities", "X", 104, 2, none⟩], []⟩) ∧
    (run_dq c2EnvOk ⟨[], []⟩ "commodities" "X" 104 2).1 = Except.ok 0 ∧
    (run_dq c2EnvOk ⟨[], []⟩ "commodities" "X" 104 2).2.runs =
      [⟨0, "commodities", "X", 104, 2, some 999⟩] := by
  have hA := C2_run_lifecycle c2EnvEmpty ⟨[], []⟩ "commodities" "Y" 104 2
  have hB := C2_run_lifecycle c2EnvEmpty ⟨[], []⟩ "commodities" "X" 104 2
  have hC := C2_run_lifecycle c2EnvOk ⟨[], []⟩ "commodities" "X" 104 2
  refine ⟨hA.1 (by decide), ?_, ?_, ?_⟩
  · have := hB.2.1 (by decide) rfl
    simpa using this
  · exact (hC.2.2 (by decide) (by with_unfolding_all decide) (by simp)).1
  · have := (hC.2.2 (by decide) (by with_unfolding_all decide) (by simp)).2
    simpa using this

/-! ## C1 — the orchestrator's reconciliation call is not calibrated -/

/-- Primary series of the C1 scenario (negative values force the
percentage-change path of `_returns`, so the comparison is independent
of the modelled logarithm). -/
def c1Primary : Series := [(101, -1), (102, -2), (103, -3), (104, -4)]

/-- Secondary series of the C1 scenario: exactly twice the primary, so
the two sources have identical percentage returns on every date. -/
def c1Secondary : Series := [(101, -2), (102, -4), (103, -6), (104, -8)]

/-- Environment of the C1 scenario: one fx risk factor with a
twelvedata primary and a stooq secondary. -/
def c1Env : EngineEnv :=
  ⟨idNumEnv, 999, ["FXTEST"],
   fun rf => if rf == "FXTEST" then
     [("twelvedata", c1Primary), ("stooq", c1Secondary)] else []⟩

/-- C1: in an orchestrated fx run whose secondary source resolved, the
engine's reconciliation runs in LEVEL mode with the uncalibrated
default tolerances (the source calls `RECON.run(primary,
other_series=other)` without the `asset_class` keyword), flagging two
dates of the scenario, while the asset-class-calibrated returns-mode
comparison the claim describes yields no issues on the same windowed
series; no returns-mode exception is ever produced by the engine. -/
theorem C1_engine_reconcile_uncalibrated :
    ((run_dq c1Env ⟨[], []⟩ "fx" "FXTEST" 104 3).2.excs.filter
        (fun e => e.rule == "reconcile.abs_pct")).map
        (fun e => (e.obs_date, e.severity)) = [(103, 100), (104, 100)] ∧
    ((run_dq c1Env ⟨[], []⟩ "fx" "FXTEST" 104 3).2.excs.filter
        (fun e => e.rule == "reconcile.returns_diff")) = [] ∧
    reconcile_run idNumEnv reconDefaultCfg "fx" ""
        (sliceWindow c1Primary 101 104) (some (sliceWindow c1Secondary 101 104)) = [] := by
  refine ⟨?_, ?_, ?_⟩ <;> with_unfolding_all decide

/-! ## C5 — fx calendar -/

/-- Holiday test written from the claim's words: the TARGET-like
holidays (New Year, Good Friday, Easter Monday, Labour Day, Christmas,
Boxing Day) taken on their fixed calendar dates with no nearest-weekday
shifting, over the same year span the calendar generates. -/
def fxHolidayClaimFixed (startRD endRD rd : Nat) : Bool :=
  let y1 := yearOfRD startRD - 1
  let y2 := yearOfRD endRD + 1
  ((List.range (y2 + 1 - y1)).map (fun k => y1 + k)).any (fun y =>
    rd == rataDie y 1 1 || rd == easterRD y - 2 || rd == easterRD y + 1 ||
    rd == rataDie y 5 1 || rd == rataDie y 12 25 || rd == rataDie y 12 26)

/-- Expected fx dates written from the claim's words: business days
minus the fixed-date TARGET-like holiday set. -/
def fxExpectedClaimFixed (startRD endRD : Nat) : List Nat :=
  ((List.range (endRD + 1 - startRD)).map (fun k => startRD + k)).filter
    (fun rd => isWeekday rd && !(fxHolidayClaimFixed startRD endRD rd))

/-- Holiday test of the amended claim: as `fxHolidayClaimFixed`, except
that New Year is observed on the nearest weekday (Saturday observed on
the preceding Friday, Sunday on the following Monday). -/
def fxHolidayAmended (startRD endRD rd : Nat) : Bool :=
  let y1 := yearOfRD startRD - 1
  let y2 := yearOfRD endRD + 1
  ((List.range (y2 + 1 - y1)).map (fun k => y1 + k)).any (fun y =>
    rd == nearestWorkday (rataDie y 1 1) || rd == easterRD y - 2 ||
    rd == easterRD y + 1 || rd == rataDie y 5 1 || rd == rataDie y 12 25 ||
    rd == rataDie y 12 26)

/-- Expected fx dates of the amended claim: business days minus the
TARGET-like holiday set with nearest-weekday New Year observance. -/
def fxExpectedAmended (startRD endRD : Nat) : List Nat :=
  ((List.range (endRD + 1 - startRD)).map (fun k => startRD + k)).filter
    (fun rd => isWeekday rd && !(fxHolidayAmended startRD endRD rd))

/-- C5 counterexample: over 2021-12-27 to 2021-12-31 the fx calendar
differs from the claimed fixed-date description — the source shifts New
Year 2022 (a Saturday) back to Friday 2021-12-31 and excludes it. -/
theorem C5_counterexample :
    expected_dates "fx" (rataDie 2021 12 27) (rataDie 2021 12 31) ≠
      fxExpectedClaimFixed (rataDie 2021 12 27) (rataDie 2021 12 31) ∧
    rataDie 2021 12 31 ∈ fxExpectedClaimFixed (rataDie 2021 12 27) (rataDie 2021 12 31) ∧
    rataDie 2021 12 31 ∉ expected_dates "fx" (rataDie 2021 12 27) (rataDie 2021 12 31) := by
  refine ⟨?_, ?_, ?_⟩ <;> decide

/-- Membership in a flat-mapped list, in `contains` form. -/
theorem contains_flatMap {α : Type} (f : α → List Nat) (x : Nat) :
    ∀ (l : List α), (l.flatMap f).contains x = l.any (fun a => (f a).contains x) := by
  intro l
  induction l with
  | nil => rfl
  | cons a l ih =>
      rw [List.flatMap_cons, List.any_cons, ← ih]
      simp [List.contains_eq_any_beq, List.any_append]

/-- C5 amended: for every window, the fx expected dates are exactly the
business days minus the TARGET-like holiday set in which New Year
carries nearest-weekday observance and the remaining fixed-date
holidays stay on their calendar dates. -/
theorem C5_amended_fx_calendar (s e : Nat) :
    expected_dates "fx" s e = fxExpectedAmended s e := by
  have h1 : expected_dates "fx" s e =
      busDayList s e (holidaysInRange targetLikeHolidaysOfYear s e) := by
    with_unfolding_all rfl
  rw [h1]
  unfold busDayList fxExpectedAmended holidaysInRange
  refine List.filter_congr ?_
  intro rd _
  congr 1
  congr 1
  rw [contains_flatMap]
  unfold fxHolidayAmended
  refine congrArg _ (funext fun y => ?_)
  simp only [targetLikeHolidaysOfYear, List.contains_eq_any_beq, List.any_cons, List.any_nil,
    Bool.or_false, Bool.or_assoc]

/-! ## C9 — reconciliation of identical series in returns mode -/

/-- On self-paired rows the returns-mode block compares a return series
with itself, every return difference is zero, and a nonnegative
tolerance flags nothing. -/
theorem reconReturnsIssues_self (env : NumEnv) (useLog : Bool) (rt : ℚ)
    (consec : Nat) (a : Series) (h : 0 ≤ rt) :
    reconReturnsIssues env useLog rt consec (a.map (fun p => (p.1, p.2, p.2))) = [] := by
  unfold reconReturnsIssues
  simp only [List.map_map]
  have hfun : ((fun (r : Nat × ℚ × ℚ) => (r.1, r.2.1)) ∘ fun (p : Obs) => (p.1, p.2, p.2)) =
      ((fun (r : Nat × ℚ × ℚ) => (r.1, r.2.2)) ∘ fun (p : Obs) => (p.1, p.2, p.2)) := by
    funext p; rfl
  rw [hfun]
  rw [zipWith_self_absdiff]
  set ra := returnsOf env useLog
    (a.map ((fun (r : Nat × ℚ × ℚ) => (r.1, r.2.2)) ∘ fun (p : Obs) => (p.1, p.2, p.2)))
  by_cases hemp : ra.map (fun p => (p.1, (0 : ℚ))) = []
  · rw [if_pos hemp]
  · rw [if_neg hemp]
    have hbreach : ∀ x ∈ (ra.map (fun p => (p.1, (0 : ℚ)))).map
        (fun p => decide (rt < p.2)), x = false := by
      intro x hx
      rw [List.map_map] at hx
      obtain ⟨p, _, rfl⟩ := List.mem_map.mp hx
      simp [decide_eq_false (not_lt.mpr h)]
    have hflags := streakAnd_all_false consec _ hbreach
    rw [zip_filter_all_false _ _ hflags]
    rfl

/-- C9 amended: in returns mode, comparing any series against an
identical copy of itself yields zero issues for every NONNEGATIVE
effective return tolerance (for a negative configured tolerance the
zero return differences themselves breach, see the counterexample). -/
theorem C9_amended_identical_series (env : NumEnv) (cfg : ReconCfg)
    (asset_class : String) (s : Series)
    (h : 0 ≤ (reconCalibration cfg asset_class).1) :
    reconcile_run env cfg asset_class "returns" s (some s) = [] := by
  show (let rows := innerJoin (dedupKeepLast s) (dedupKeepLast s)
    if rows = [] then []
    else if reconMode asset_class "returns" = "returns" then
      reconReturnsIssues env cfg.use_log_returns (reconCalibration cfg asset_class).1
        (reconCalibration cfg asset_class).2 rows
    else reconLevelIssues cfg rows) = []
  have hmd : reconMode asset_class "returns" = "returns" := rfl
  rw [innerJoin_self (dedupKeepLast s) (dedupKeepLast_dates_nodup s)]
  by_cases hemp : (dedupKeepLast s).map (fun p => (p.1, p.2, p.2)) = []
  · rw [if_pos hemp]
  · rw [if_neg hemp, hmd, if_pos rfl]
    exact reconReturnsIssues_self env cfg.use_log_returns _ _ (dedupKeepLast s) h

/-- C9 counterexample: with a negative configured tolerance the claim
fails — an identical pair of series (through the percentage-change
path, so independent of the modelled logarithm) produces issues. -/
theorem C9_counterexample :
    reconcile_run idNumEnv ⟨1/2000, 1/500, -1/1000, 3, true⟩ "" "returns"
      [(1, 1), (2, 2), (3, -1), (4, 2), (5, 3)]
      (some [(1, 1), (2, 2), (3, -1), (4, 2), (5, 3)]) ≠ [] := by
  with_unfolding_all decide

/-- Witness for C9 at a concrete series and the default configuration. -/
theorem C9_witness :
    reconcile_run idNumEnv reconDefaultCfg "" "returns" [(1, 1), (2, 2), (3, -1)]
      (some [(1, 1), (2, 2), (3, -1)]) = [] :=
  C9_amended_identical_series idNumEnv reconDefaultCfg "" [(1, 1), (2, 2), (3, -1)]
    (by with_unfolding_all decide)

/-! ## C3 — reconciliation severity curve -/

/-- An element of a zip with the persistence-filtered flags whose flag
is set satisfies the underlying breach predicate: the filter is a
pointwise AND over shifted copies, so a surviving position breaches on
its own. -/
theorem zip_pointwise_imp {α : Type} (pred : α → Bool) :
    ∀ (l : List α) (bs : List Bool),
      (∀ i, bs.getD i false = true → (l.map pred).getD i false = true) →
      ∀ x ∈ l.zip bs, x.2 = true → pred x.1 = true := by
  intro l
  induction l with
  | nil => intro bs _ x hx; simp at hx
  | cons a l ih =>
      intro bs himp x hx ht
      cases bs with
      | nil => simp at hx
      | cons b bs =>
          rcases List.mem_cons.mp hx with rfl | hx'
          · have := himp 0 ht
            simpa using this
          · exact ih bs (fun i hi => himp (i + 1) (by simpa using hi)) x hx' ht

/-- An element of a zip with the persistence-filtered flags whose flag
is set satisfies the underlying breach predicate: the filter is a
pointwise AND over shifted copies, so a surviving position breaches on
its own. -/
theorem flagged_implies {α : Type} (entries : List α) (pred : α → Bool) (k : Nat) :
    ∀ x ∈ entries.zip (streakAnd k (entries.map pred)), x.2 = true → pred x.1 = true :=
  zip_pointwise_imp pred entries (streakAnd k (entries.map pred))
    (fun i hi => streakAnd_imp k (entries.map pred) i hi)

/-- The truncating `int(...)` commutes with the `min` against 100. -/
theorem floor_min_hundred (x : ℚ) : ⌊min (100 : ℚ) x⌋ = min 100 ⌊x⌋ := by
  rcases le_total x 100 with h | h
  · rw [min_eq_right h, min_eq_right]
    calc ⌊x⌋ ≤ ⌊(100 : ℚ)⌋ := Int.floor_le_floor h
      _ = 100 := by norm_num
  · rw [min_eq_left h, min_eq_left]
    · norm_num
    · calc (100 : ℤ) = ⌊(100 : ℚ)⌋ := by norm_num
        _ ≤ ⌊x⌋ := Int.floor_le_floor h

/-- The shared severity curve in the claim's shape. -/
theorem reconSeverity_eq (tol m : ℚ) :
    reconSeverity tol m = min 100 ⌊70 + 30 * min 1 (m / (5 * tol))⌋ :=
  floor_min_hundred _

/-- At five times the tolerance and beyond the severity curve saturates
at 100. -/
theorem reconSeverity_saturates (tol m : ℚ) (h0 : 0 < tol) (h5 : 5 * tol ≤ m) :
    reconSeverity tol m = 100 := by
  unfold reconSeverity
  have h5t : (0 : ℚ) < 5 * tol := by linarith
  have h1 : (1 : ℚ) ≤ m / (5 * tol) := (one_le_div h5t).mpr h5
  rw [min_eq_left h1]
  norm_num

/-- C3: every reconciliation issue's severity follows
`min(100, 70 + 30*min(1, metric/(5*tol)))` with the metric strictly
above the (positive) tolerance; consequently a breach with metric
exactly the tolerance cannot occur (severity 70 holds vacuously for
it), and a metric at least five times the tolerance scores exactly 100.
Both rule modes are covered: returns mode against the calibrated return
tolerance, level mode against the configured percentage tolerance. -/
theorem C3_reconcile_severity (env : NumEnv) (cfg : ReconCfg)
    (asset_class : String) (a b : Series)
    (hrt : 0 < (reconCalibration cfg asset_class).1) (hpt : 0 < cfg.pct_tol) :
    (∀ i ∈ reconcile_run env cfg asset_class "returns" a (some b), ∃ m : ℚ,
      i.details.lookup "ret_diff" = some m ∧
      (reconCalibration cfg asset_class).1 < m ∧
      i.severity = min 100 ⌊70 + 30 * min 1 (m / (5 * (reconCalibration cfg asset_class).1))⌋ ∧
      (m = (reconCalibration cfg asset_class).1 → i.severity = 70) ∧
      (5 * (reconCalibration cfg asset_class).1 ≤ m → i.severity = 100)) ∧
    (∀ i ∈ reconcile_run env cfg asset_class "level" a (some b), ∃ m : ℚ,
      i.details.lookup "pct_diff" = some m ∧
      cfg.pct_tol < m ∧
      i.severity = min 100 ⌊70 + 30 * min 1 (m / (5 * cfg.pct_tol))⌋ ∧
      (m = cfg.pct_tol → i.severity = 70) ∧
      (5 * cfg.pct_tol ≤ m → i.severity = 100)) := by
  constructor
  · intro i hi
    set rt := (reconCalibration cfg asset_class).1 with hrtdef
    -- peel the orchestrating wrapper down to the returns-mode block
    rw [show reconcile_run env cfg asset_class "returns" a (some b) =
        (if innerJoin (dedupKeepLast a) (dedupKeepLast b) = [] then []
         else if reconMode asset_class "returns" = "returns" then
           reconReturnsIssues env cfg.use_log_returns rt
             (reconCalibration cfg asset_class).2
             (innerJoin (dedupKeepLast a) (dedupKeepLast b))
         else reconLevelIssues cfg (innerJoin (dedupKeepLast a) (dedupKeepLast b)))
      from rfl] at hi
    by_cases hemp : innerJoin (dedupKeepLast a) (dedupKeepLast b) = []
    · rw [if_pos hemp] at hi; simp at hi
    · rw [if_neg hemp,
        if_pos (show reconMode asset_class "returns" = "returns" from rfl)] at hi
      unfold reconReturnsIssues at hi
      set rdiff : Series := (returnsOf env cfg.use_log_returns
          ((innerJoin (dedupKeepLast a) (dedupKeepLast b)).map (fun r => (r.1, r.2.1)))).zipWith
        (fun p q => (p.1, |p.2 - q.2|))
        (returnsOf env cfg.use_log_returns
          ((innerJoin (dedupKeepLast a) (dedupKeepLast b)).map (fun r => (r.1, r.2.2)))) with hrd
      by_cases hre : rdiff = []
      · rw [if_pos hre] at hi; simp at hi
      · rw [if_neg hre] at hi
        obtain ⟨pb, hpb, rfl⟩ := List.mem_map.mp hi
        have hmem := List.mem_filter.mp hpb
        have hbr := flagged_implies rdiff (fun p => decide (rt < p.2))
          (reconCalibration cfg asset_class).2 pb hmem.1 hmem.2
        have hlt : rt < pb.1.2 := of_decide_eq_true hbr
        refine ⟨pb.1.2, by simp [List.lookup], hlt, ?_, ?_, ?_⟩
        · exact reconSeverity_eq rt pb.1.2
        · intro hEq; exact absurd hEq.symm (ne_of_lt hlt)
        · intro h5; exact reconSeverity_saturates rt pb.1.2 hrt h5
  · intro i hi
    rw [show reconcile_run env cfg asset_class "level" a (some b) =
        (if innerJoin (dedupKeepLast a) (dedupKeepLast b) = [] then []
         else if reconMode asset_class "level" = "returns" then
           reconReturnsIssues env cfg.use_log_returns (reconCalibration cfg asset_class).1
             (reconCalibration cfg asset_class).2
             (innerJoin (dedupKeepLast a) (dedupKeepLast b))
         else reconLevelIssues cfg (innerJoin (dedupKeepLast a) (dedupKeepLast b)))
      from rfl] at hi
    by_cases hemp : innerJoin (dedupKeepLast a) (dedupKeepLast b) = []
    · rw [if_pos hemp] at hi; simp at hi
    · have hnr : ¬(reconMode asset_class "level" = "returns") := by
        rw [show reconMode asset_class "level" = "level" from rfl]
        decide
      rw [if_neg hemp, if_neg hnr] at hi
      unfold reconLevelIssues at hi
      set entries := (innerJoin (dedupKeepLast a) (dedupKeepLast b)).map (fun r =>
        (r.1, |r.2.1 - r.2.2|,
         if |r.2.1| = 0 then (none : Option ℚ) else some (|r.2.1 - r.2.2| / |r.2.1|)))
        with hent
      obtain ⟨eb, heb, rfl⟩ := List.mem_map.mp hi
      have hmem := List.mem_filter.mp heb
      have hbr := flagged_implies entries
        (fun e => decide (cfg.abs_tol < e.2.1) &&
          (match e.2.2 with | some v => decide (cfg.pct_tol < v) | none => false))
        cfg.consecutive eb hmem.1 hmem.2
      obtain ⟨⟨d, ad, opct⟩, flag⟩ := eb
      obtain ⟨hc1, hc2⟩ := (Bool.and_eq_true _ _).mp hbr
      rcases opct with _ | v
      · simp at hc2
      · have hlt : cfg.pct_tol < v := of_decide_eq_true hc2
        refine ⟨v, by simp [List.lookup], hlt, ?_, ?_, ?_⟩
        · exact reconSeverity_eq cfg.pct_tol v
        · intro hEq; exact absurd hEq.symm (ne_of_lt hlt)
        · intro h5
          exact reconSeverity_saturates cfg.pct_tol v hpt h5

/-- A placeholder issue used to take heads of concrete issue lists. -/
def dummyIssue : Issue := ⟨"", 0, 0, "", []⟩

/-- Witness for C3: the first returns-mode and level-mode issues of a
concrete divergent source pair satisfy the severity-curve properties. -/
theorem C3_witness :
    (∃ m : ℚ,
      ((reconcile_run idNumEnv reconDefaultCfg "commodities" "returns"
          [(1, 1), (2, 1), (3, 1), (4, 1), (5, 1)]
          (some [(1, 1), (2, 2), (3, 4), (4, 8), (5, 16)])).headD dummyIssue).details.lookup
          "ret_diff" = some m ∧
      (reconCalibration reconDefaultCfg "commodities").1 < m ∧
      ((reconcile_run idNumEnv reconDefaultCfg "commodities" "returns"
          [(1, 1), (2, 1), (3, 1), (4, 1), (5, 1)]
          (some [(1, 1), (2, 2), (3, 4), (4, 8), (5, 16)])).headD dummyIssue).severity =
        min 100 ⌊70 + 30 * min 1 (m / (5 * (reconCalibration reconDefaultCfg "commodities").1))⌋ ∧
      (m = (reconCalibration reconDefaultCfg "commodities").1 →
        ((reconcile_run idNumEnv reconDefaultCfg "commodities" "returns"
          [(1, 1), (2, 1), (3, 1), (4, 1), (5, 1)]
          (some [(1, 1), (2, 2), (3, 4), (4, 8), (5, 16)])).headD dummyIssue).severity = 70) ∧
      (5 * (reconCalibration reconDefaultCfg "commodities").1 ≤ m →
        ((reconcile_run idNumEnv reconDefaultCfg "commodities" "returns"
          [(1, 1), (2, 1), (3, 1), (4, 1), (5, 1)]
          (some [(1, 1), (2, 2), (3, 4), (4, 8), (5, 16)])).headD dummyIssue).severity = 100)) ∧
    (∃ m : ℚ,
      ((reconcile_run idNumEnv reconDefaultCfg "commodities" "level"
          [(1, 1), (2, 1), (3, 1), (4, 1), (5, 1)]
          (some [(1, 1), (2, 2), (3, 4), (4, 8), (5, 16)])).headD dummyIssue).details.lookup
          "pct_diff" = some m ∧
      reconDefaultCfg.pct_tol < m ∧
      ((reconcile_run idNumEnv reconDefaultCfg "commodities" "level"
          [(1, 1), (2, 1), (3, 1), (4, 1), (5, 1)]
          (some [(1, 1), (2, 2), (3, 4), (4, 8), (5, 16)])).headD dummyIssue).severity =
        min 100 ⌊70 + 30 * min 1 (m / (5 * reconDefaultCfg.pct_tol))⌋ ∧
      (m = reconDefaultCfg.pct_tol →
        ((reconcile_run idNumEnv reconDefaultCfg "commodities" "level"
          [(1, 1), (2, 1), (3, 1), (4, 1), (5, 1)]
          (some [(1, 1), (2, 2), (3, 4), (4, 8), (5, 16)])).headD dummyIssue).severity = 70) ∧
      (5 * reconDefaultCfg.pct_tol ≤ m →
        ((reconcile_run idNumEnv reconDefaultCfg "commodities" "level"
          [(1, 1), (2, 1), (3, 1), (4, 1), (5, 1)]
          (some [(1, 1), (2, 2), (3, 4), (4, 8), (5, 16)])).headD dummyIssue).severity = 100)) := by
  have h := C3_reconcile_severity idNumEnv reconDefaultCfg "commodities"
    [(1, 1), (2, 1), (3, 1), (4, 1), (5, 1)]
    [(1, 1), (2, 2), (3, 4), (4, 8), (5, 16)]
    (by with_unfolding_all decide) (by with_unfolding_all decide)
  exact ⟨h.1 _ (by with_unfolding_all decide), h.2 _ (by with_unfolding_all decide)⟩

/-! ## C4 — FX triangle boundary and streak behavior -/

/-- Pointwise conjunction of two all-true replicates. -/
theorem zipWith_and_replicate_true (q : Nat) : ∀ (r : Nat),
    List.zipWith and (List.replicate q true) (List.replicate r true) =
      List.replicate (min q r) true := by
  induction q with
  | zero => intro r; simp
  | succ q ih =>
      intro r
      cases r with
      | zero => simp
      | succ r =>
          rw [List.replicate_succ, List.replicate_succ, List.zipWith_cons_cons, ih r]
          rw [show min (q + 1) (r + 1) = min q r + 1 from by omega, List.replicate_succ]
          rfl

/-- One persistence step on an all-true breach list kills only the
first position. -/
theorem streakStep_replicate_true (p : Nat) :
    streakStep (List.replicate p true) =
      List.replicate (min 1 p) false ++ List.replicate (p - 1) true := by
  cases p with
  | zero => rfl
  | succ p =>
      unfold streakStep
      rw [List.replicate_succ, List.zipWith_cons_cons]
      rw [show List.zipWith and (List.replicate p true) (true :: List.replicate p true) =
          List.replicate (min p (p + 1)) true from
        by rw [← List.replicate_succ]; exact zipWith_and_replicate_true p (p + 1)]
      rw [show min p (p + 1) = p from by omega]
      simp

/-- The persistence step commutes with a leading false. -/
theorem streakStep_cons_false (L : List Bool) :
    streakStep (false :: L) = false :: streakStep L := by
  unfold streakStep
  rw [List.zipWith_cons_cons]
  rfl

/-- One persistence step on a false-prefix/true-suffix breach list. -/
theorem streakStep_replicate (m : Nat) : ∀ (p : Nat),
    streakStep (List.replicate m false ++ List.replicate p true) =
      List.replicate (min (m + 1) (m + p)) false ++ List.replicate (p - 1) true := by
  induction m with
  | zero =>
      intro p
      simpa using streakStep_replicate_true p
  | succ m ih =>
      intro p
      rw [List.replicate_succ, List.cons_append, streakStep_cons_false, ih p]
      rw [show min (m + 1 + 1) (m + 1 + p) = min (m + 1) (m + p) + 1 from by omega]
      rw [List.replicate_succ, List.cons_append]

/-- The persistence filter on an all-true breach list flags exactly the
fully covered positions (every position from `k - 1` on). -/
theorem streakAnd_replicate_true (k n : Nat) :
    streakAnd k (List.replicate n true) =
      List.replicate (min (k - 1) n) false ++ List.replicate (n - (k - 1)) true := by
  unfold streakAnd
  generalize k - 1 = j
  induction j with
  | zero => simp
  | succ j ih =>
      rw [Function.iterate_succ_apply', ih, streakStep_replicate]
      rw [show min (min j n + 1) (min j n + (n - j)) = min (j + 1) n from by omega]
      rw [show n - j - 1 = n - (j + 1) from by omega]

/-- Filtering a zip against a false-prefix/true-suffix flag list keeps
exactly the suffix beyond the prefix. -/
theorem zip_filter_drop {α : Type} : ∀ (l : List α) (m : Nat),
    (l.zip (List.replicate (min m l.length) false ++
        List.replicate (l.length - m) true)).filter (fun p => p.2) =
      (l.drop m).map (fun x => (x, true)) := by
  intro l
  induction l with
  | nil => intro m; simp
  | cons x t ih =>
      intro m
      cases m with
      | zero =>
          rw [show min 0 (x :: t).length = 0 from by omega]
          rw [List.replicate, List.nil_append, List.length_cons, Nat.sub_zero,
            List.replicate_succ, List.zip_cons_cons, List.filter_cons]
          have := ih 0
          rw [show min 0 t.length = 0 from by omega] at this
          simp only [List.replicate, List.nil_append, Nat.sub_zero] at this
          simpa using this
      | succ m =>
          rw [show min (m + 1) (x :: t).length = min m t.length + 1 from by
            simp [List.length_cons]; omega]
          rw [List.replicate_succ, List.cons_append, List.zip_cons_cons,
            List.filter_cons]
          have hlen : (x :: t).length - (m + 1) = t.length - m := by
            simp [List.length_cons]
          rw [hlen]
          simpa using ih m

/-- A run of the FX triangle rule whose aligned rows never breach
produces no issues. -/
theorem fx_triangle_run_no_breach (cfg : FxTriCfg) (p : Series) (ab bc ac : Series)
    (h : ∀ r ∈ fxAlign ab bc ac, ¬(cfg.threshold_abs_pct < fxAbsPct r)) :
    fx_triangle_run cfg p (some ab) (some bc) (some ac) = [] := by
  show (if fxAlign ab bc ac = [] then []
    else (((fxAlign ab bc ac).zip (streakAnd cfg.consecutive
        ((fxAlign ab bc ac).map
          (fun r => decide (cfg.threshold_abs_pct < fxAbsPct r))))).filter
      (fun rb => rb.2)).map (fun rb => fxTriIssue cfg rb.1)) = []
  by_cases hrows : fxAlign ab bc ac = []
  · rw [if_pos hrows]
  · rw [if_neg hrows]
    have hbreach : ∀ x ∈ (fxAlign ab bc ac).map
        (fun r => decide (cfg.threshold_abs_pct < fxAbsPct r)), x = false := by
      intro x hx
      obtain ⟨r, hr, rfl⟩ := List.mem_map.mp hx
      exact decide_eq_false (h r hr)
    rw [zip_filter_all_false _ _ (streakAnd_all_false cfg.consecutive _ hbreach)]
    rfl

/-- The severity curve of the FX triangle rule evaluates to exactly 60
for a relative error strictly above the threshold but below 1.1 times
the threshold. -/
theorem fxSeverity_sixty (thr c : ℚ) (h1 : thr < c) (h2 : c < 11 / 10 * thr) :
    ⌊min (100 : ℚ) (60 + 40 * min 1 ((c / thr - 1) / 4))⌋ = 60 := by
  have hthr : 0 < thr := by nlinarith
  have hr1 : 1 < c / thr := (one_lt_div hthr).mpr h1
  have hr2 : c / thr < 11 / 10 := by
    rw [div_lt_iff hthr]
    linarith
  have hx1 : (0 : ℚ) < (c / thr - 1) / 4 := by linarith
  have hx2 : (c / thr - 1) / 4 < 1 / 40 := by linarith
  rw [min_eq_right (by linarith : (c / thr - 1) / 4 ≤ 1)]
  rw [min_eq_right (by linarith : 60 + 40 * ((c / thr - 1) / 4) ≤ 100)]
  rw [Int.floor_eq_iff]
  constructor
  · push_cast; linarith
  · push_cast; linarith

/-- C4 amended: aligned triangle errors exactly at the breach threshold
are never flagged (the breach test is strict); if `AC = AB·BC` exactly
(with nonzero AC) on every aligned date, no issues are produced; and a
relative error held constant strictly above the threshold (within 10%
of it) flags exactly every fully covered date of the streak — each such
issue scoring severity exactly 60 with suggested action source_switch. -/
theorem C4_fx_triangle_amended (cfg : FxTriCfg) (c : ℚ)
    (ab bc ac ab2 bc2 ac2 ab3 bc3 ac3 p1 p2 p3 : Series)
    (h0 : 0 ≤ cfg.threshold_abs_pct)
    (hexact : ∀ r ∈ fxAlign ab bc ac, r.2.2.2 = r.2.1 * r.2.2.1 ∧ r.2.2.2 ≠ 0)
    (hconst : ∀ r ∈ fxAlign ab2 bc2 ac2, fxAbsPct r = c)
    (hc1 : cfg.threshold_abs_pct < c) (hc2 : c < 11 / 10 * cfg.threshold_abs_pct)
    (hthr : ∀ r ∈ fxAlign ab3 bc3 ac3, fxAbsPct r = cfg.threshold_abs_pct) :
    fx_triangle_run cfg p1 (some ab) (some bc) (some ac) = [] ∧
    fx_triangle_run cfg p2 (some ab2) (some bc2) (some ac2) =
      ((fxAlign ab2 bc2 ac2).drop (cfg.consecutive - 1)).map (fxTriIssue cfg) ∧
    (∀ i ∈ fx_triangle_run cfg p2 (some ab2) (some bc2) (some ac2),
      i.severity = 60 ∧ i.suggested_action = "source_switch") ∧
    fx_triangle_run cfg p3 (some ab3) (some bc3) (some ac3) = [] := by
  have hpart2 : fx_triangle_run cfg p2 (some ab2) (some bc2) (some ac2) =
      ((fxAlign ab2 bc2 ac2).drop (cfg.consecutive - 1)).map (fxTriIssue cfg) := by
    show (if fxAlign ab2 bc2 ac2 = [] then []
      else (((fxAlign ab2 bc2 ac2).zip (streakAnd cfg.consecutive
          ((fxAlign ab2 bc2 ac2).map
            (fun r => decide (cfg.threshold_abs_pct < fxAbsPct r))))).filter
        (fun rb => rb.2)).map (fun rb => fxTriIssue cfg rb.1)) = _
    by_cases hrows : fxAlign ab2 bc2 ac2 = []
    · rw [if_pos hrows, hrows]
      simp
    · rw [if_neg hrows]
      have hbreach : (fxAlign ab2 bc2 ac2).map
          (fun r => decide (cfg.threshold_abs_pct < fxAbsPct r)) =
          List.replicate (fxAlign ab2 bc2 ac2).length true := by
        have := List.eq_replicate_of_mem (a := true)
          (l := (fxAlign ab2 bc2 ac2).map
            (fun r => decide (cfg.threshold_abs_pct < fxAbsPct r)))
          (by
            intro x hx
            obtain ⟨r, hr, rfl⟩ := List.mem_map.mp hx
            rw [hconst r hr]
            exact decide_eq_true hc1)
        rw [this, List.length_map]
      rw [hbreach, streakAnd_replicate_true, zip_filter_drop, List.map_map]
      rfl
  refine ⟨?_, hpart2, ?_, ?_⟩
  · refine fx_triangle_run_no_breach cfg p1 ab bc ac ?_
    intro r hr
    obtain ⟨hprod, hnz⟩ := hexact r hr
    have : fxAbsPct r = 0 := by
      unfold fxAbsPct
      rw [← hprod, div_self hnz]
      simp
    rw [this]
    exact not_lt.mpr h0
  · intro i hi
    rw [hpart2] at hi
    obtain ⟨r, hr, rfl⟩ := List.mem_map.mp hi
    have hrr : r ∈ fxAlign ab2 bc2 ac2 := List.mem_of_mem_drop hr
    refine ⟨?_, rfl⟩
    show (⌊min (100 : ℚ) (60 + 40 * min 1 ((fxAbsPct r / cfg.threshold_abs_pct - 1) / 4))⌋ : ℤ) = 60
    rw [hconst r hrr]
    exact fxSeverity_sixty cfg.threshold_abs_pct c hc1 hc2
  · refine fx_triangle_run_no_breach cfg p3 ab3 bc3 ac3 ?_
    intro r hr
    rw [hthr r hr]
    exact lt_irrefl _

/-- C4 counterexample: legs whose relative error sits exactly at the
default threshold on 3 consecutive aligned dates — the claim flags the
streak with severity 60, but the strict breach test yields no issues. -/
theorem C4_counterexample :
    (∀ r ∈ fxAlign [(1, 1), (2, 1), (3, 1)]
        [(1, 201/200), (2, 201/200), (3, 201/200)] [(1, 1), (2, 1), (3, 1)],
      fxAbsPct r = (fxTriDefaultCfg none).threshold_abs_pct) ∧
    (fxAlign [(1, 1), (2, 1), (3, 1)]
        [(1, 201/200), (2, 201/200), (3, 201/200)] [(1, 1), (2, 1), (3, 1)]).length = 3 ∧
    fx_triangle_run (fxTriDefaultCfg none) [] (some [(1, 1), (2, 1), (3, 1)])
      (some [(1, 201/200), (2, 201/200), (3, 201/200)])
      (some [(1, 1), (2, 1), (3, 1)]) = [] := by
  refine ⟨?_, ?_, ?_⟩ <;> with_unfolding_all decide

/-- Witness for C4 at concrete legs: an exact triangle, a constant
5%-above-threshold error streak over four dates, and an exactly
at-threshold pair of dates. -/
theorem C4_witness :
    fx_triangle_run (fxTriDefaultCfg none) [] (some [(1, 2), (2, 2), (3, 2)])
      (some [(1, 3), (2, 3), (3, 3)]) (some [(1, 6), (2, 6), (3, 6)]) = [] ∧
    fx_triangle_run (fxTriDefaultCfg none) []
      (some [(1, 1), (2, 1), (3, 1), (4, 1)])
      (some [(1, 200/199), (2, 200/199), (3, 200/199), (4, 200/199)])
      (some [(1, 1), (2, 1), (3, 1), (4, 1)]) =
      ((fxAlign [(1, 1), (2, 1), (3, 1), (4, 1)]
        [(1, 200/199), (2, 200/199), (3, 200/199), (4, 200/199)]
        [(1, 1), (2, 1), (3, 1), (4, 1)]).drop
          ((fxTriDefaultCfg none).consecutive - 1)).map (fxTriIssue (fxTriDefaultCfg none)) ∧
    ((fx_triangle_run (fxTriDefaultCfg none) []
      (some [(1, 1), (2, 1), (3, 1), (4, 1)])
      (some [(1, 200/199), (2, 200/199), (3, 200/199), (4, 200/199)])
      (some [(1, 1), (2, 1), (3, 1), (4, 1)])).headD dummyIssue).severity = 60 ∧
    fx_triangle_run (fxTriDefaultCfg none) [] (some [(5, 1), (6, 1)])
      (some [(5, 201/200), (6, 201/200)]) (some [(5, 1), (6, 1)]) = [] := by
  have h := C4_fx_triangle_amended (fxTriDefaultCfg none) (1/199)
    [(1, 2), (2, 2), (3, 2)] [(1, 3), (2, 3), (3, 3)] [(1, 6), (2, 6), (3, 6)]
    [(1, 1), (2, 1), (3, 1), (4, 1)]
    [(1, 200/199), (2, 200/199), (3, 200/199), (4, 200/199)]
    [(1, 1), (2, 1), (3, 1), (4, 1)]
    [(5, 1), (6, 1)] [(5, 201/200), (6, 201/200)] [(5, 1), (6, 1)]
    [] [] []
    (by with_unfolding_all decide) (by with_unfolding_all decide)
    (by with_unfolding_all decide) (by with_unfolding_all decide)
    (by with_unfolding_all decide) (by with_unfolding_all decide)
  exact ⟨h.1, h.2.1, (h.2.2.1 _ (by with_unfolding_all decide)).1, h.2.2.2⟩

/-! ## C8 — spike rule -/

/-- C8: below 30 non-null points the spike rule yields no issues; at 30
or more points its issues are exactly the positions whose robust
z-score (value minus centered rolling median of window 21, over 1.4826
times the rolling MAD, undefined at zero MAD) is defined and at least 6
in absolute value, suggested action winsorize below 12 and remove from
12 on. -/
theorem C8_spike_rule (s : Series) :
    (s.length < 30 → hampel_run hampelDefaultCfg s = []) ∧
    (30 ≤ s.length →
      (∀ i ∈ hampel_run hampelDefaultCfg s, ∃ k, k < s.length ∧ ∃ z : ℚ,
        robustZ (s.map Prod.snd) 21 k = some z ∧ 6 ≤ |z| ∧
        i = hampelIssue hampelDefaultCfg ((s.map Prod.fst).getD k 0) z ∧
        (i.suggested_action = "winsorize" ↔ |z| < 12) ∧
        (i.suggested_action = "remove" ↔ 12 ≤ |z|)) ∧
      (∀ k, k < s.length → (robustZ (s.map Prod.snd) 21 k).isSome = true →
        6 ≤ |(robustZ (s.map Prod.snd) 21 k).getD 0| →
        hampelIssue hampelDefaultCfg ((s.map Prod.fst).getD k 0)
            ((robustZ (s.map Prod.snd) 21 k).getD 0) ∈
          hampel_run hampelDefaultCfg s)) := by
  constructor
  · intro h
    unfold hampel_run
    rw [if_pos h]
  · intro h30
    have hnot : ¬(s.length < 30) := not_lt.mpr h30
    constructor
    · intro i hi
      unfold hampel_run at hi
      rw [if_neg hnot] at hi
      obtain ⟨k, hkr, hfk⟩ := List.mem_filterMap.mp hi
      have hk : k < s.length := List.mem_range.mp hkr
      refine ⟨k, hk, ?_⟩
      rw [show hampelDefaultCfg.window = 21 from rfl] at hfk
      rcases hz : robustZ (s.map Prod.snd) 21 k with _ | z
      · simp only [hz] at hfk
        simp at hfk
      · simp only [hz] at hfk
        by_cases h6 : hampelDefaultCfg.n_sigmas ≤ |z|
        · rw [if_pos h6] at hfk
          have hi6 : (6 : ℚ) ≤ |z| := h6
          obtain rfl := (Option.some_inj.mp hfk).symm
          refine ⟨z, rfl, hi6, rfl, ?_, ?_⟩
          · constructor
            · intro hw
              by_contra h12
              have : (hampelIssue hampelDefaultCfg ((s.map Prod.fst).getD k 0) z).suggested_action
                  = "remove" := by
                unfold hampelIssue
                simp only [if_neg h12]
              rw [this] at hw
              exact absurd hw (by decide)
            · intro h12
              unfold hampelIssue
              simp only [if_pos h12]
          · constructor
            · intro hw
              by_contra h12
              have h12' : |z| < 12 := not_le.mp h12
              have : (hampelIssue hampelDefaultCfg ((s.map Prod.fst).getD k 0) z).suggested_action
                  = "winsorize" := by
                unfold hampelIssue
                simp only [if_pos h12']
              rw [this] at hw
              exact absurd hw (by decide)
            · intro h12
              unfold hampelIssue
              simp only [if_neg (not_lt.mpr h12)]
        · rw [if_neg h6] at hfk
          simp at hfk
    · intro k hk hsome h6
      unfold hampel_run
      rw [if_neg hnot]
      refine List.mem_filterMap.mpr ⟨k, List.mem_range.mpr hk, ?_⟩
      rcases hz : robustZ (s.map Prod.snd) 21 k with _ | z
      · rw [hz] at hsome
        simp at hsome
      · rw [hz] at h6
        simp only [Option.getD_some] at h6
        rw [show hampelDefaultCfg.window = 21 from rfl]
        simp only [hz, Option.getD_some]
        rw [if_pos (show hampelDefaultCfg.n_sigmas ≤ |z| from h6)]

/-- A 31-point series with one extreme value at position 15 over a
pseudo-random base. -/
def hampelWitnessSeries : Series :=
  (List.range 31).map
    (fun k => (k, if k == 15 then (1000 : ℚ) else (((k * 7) % 13 : ℕ) : ℚ)))

/-- Witness for C8: the spike is flagged at 30+ points, and a short
series yields nothing. -/
theorem C8_witness :
    hampelIssue hampelDefaultCfg ((hampelWitnessSeries.map Prod.fst).getD 15 0)
        ((robustZ (hampelWitnessSeries.map Prod.snd) 21 15).getD 0) ∈
      hampel_run hampelDefaultCfg hampelWitnessSeries ∧
    hampel_run hampelDefaultCfg [(1, 5), (2, 6)] = [] := by
  constructor
  · exact ((C8_spike_rule hampelWitnessSeries).2 (by with_unfolding_all decide)).2 15
      (by with_unfolding_all decide) (by with_unfolding_all decide)
      (by with_unfolding_all decide)
  · exact (C8_spike_rule [(1, 5), (2, 6)]).1 (by with_unfolding_all decide)

end MarketDQ

